import Mathlib

/-!
Verification of `src/ebook_organizer.py`.

A shallow embedding of the ebook-organizer program in Lean 4, together with
theorems settling the specification claims about it.

Conventions used throughout:
* Python strings are `String`, manipulated through `List Char` helpers so that
  every definition is executable and kernel-reducible.
* Machine-external collaborators (the PDF/EPUB parsing libraries, the LLM
  completion endpoint, the filesystem) are explicit parameters: fallible ones
  return `Except String _` (a raised exception is `Except.error`), the LLM is a
  total function from prompt to response, and directories are a finite tree.
* Python `dict` values built by the program always carry the same keys, so they
  are modeled as structures; a key that a given code path never sets (for
  example `creation_date` for EPUB/MOBI records, which downstream code reads
  only via `.get('creation_date', '')`) is modeled as the empty-string field.
* Character classes (`\d`, `str.strip` whitespace, lowercasing) are modeled at
  ASCII precision; all inputs appearing in theorems are ASCII.
-/

namespace EbookOrg

/-! ## String helpers (Python string primitives over `List Char`) -/

/-- Python `str.strip()` whitespace characters (ASCII). -/
def isPySpace (c : Char) : Bool :=
  c = ' ' ∨ c = Char.ofNat 9 ∨ c = Char.ofNat 10 ∨ c = Char.ofNat 13 ∨
    c = Char.ofNat 11 ∨ c = Char.ofNat 12

/-- Python `str.strip()` on a character list: drop whitespace at both ends. -/
def pyStripList (l : List Char) : List Char :=
  ((l.dropWhile isPySpace).reverse.dropWhile isPySpace).reverse

/-- Python `str.strip()`. -/
def pyStrip (s : String) : String := String.mk (pyStripList s.data)

/-- `String.take` via the character list. -/
def strTake (s : String) (n : Nat) : String := String.mk (s.data.take n)

/-- `String.drop` via the character list. -/
def strDrop (s : String) (n : Nat) : String := String.mk (s.data.drop n)

/-- Python `str.startswith` via the character list. -/
def strStartsWith (s p : String) : Bool := p.data.isPrefixOf s.data

/-- `os.path.basename`: everything after the last `/`. -/
def basenameList (l : List Char) : List Char :=
  (l.reverse.takeWhile (fun c => c ≠ '/')).reverse

/-- `os.path.basename` on strings. -/
def basename (s : String) : String := String.mk (basenameList s.data)

/-- Characters before the last `.` of a list known to contain a `.`
(Python `name.rsplit('.', 1)[0]`). -/
def beforeLastDot (l : List Char) : List Char :=
  ((l.reverse.dropWhile (fun c => c ≠ '.')).drop 1).reverse

/-- `os.path.splitext(path)[1]`: the extension (with its dot) of the basename,
where leading dots of the basename do not start an extension. -/
def splitextExt (path : String) : String :=
  let b := basenameList path.data
  let rest := b.dropWhile (fun c => c = '.')
  if rest.contains '.' then
    String.mk ('.' :: (rest.reverse.takeWhile (fun c => c ≠ '.')).reverse)
  else String.mk []

/-- Python `str.lower()` (ASCII). -/
def lowerStr (s : String) : String := String.mk (s.data.map Char.toLower)

/-- First occurrence split, fuel-driven: `pySplitFirstAux fuel needle s` returns
the parts before and after the first occurrence of `needle` in `s`.  The fuel is
always instantiated with at least `s.length + 1`, which is enough because every
step consumes one character of `s`. -/
def pySplitFirstAux : Nat → List Char → List Char → Option (List Char × List Char)
  | 0, _, _ => none
  | fuel + 1, needle, s =>
    if needle.isPrefixOf s then some ([], s.drop needle.length)
    else
      match s with
      | [] => none
      | c :: rest =>
        (pySplitFirstAux fuel needle rest).map (fun p => (c :: p.1, p.2))

/-- Python `s.split(sep, 1)` when `sep` occurs (`some (before, after)`), `none`
otherwise. -/
def pySplitFirst (sep s : String) : Option (String × String) :=
  (pySplitFirstAux (s.data.length + 1) sep.data s.data).map
    (fun p => (String.mk p.1, String.mk p.2))

/-- Python `str.replace(old, new)` (all non-overlapping occurrences, left to
right), fuel-driven; every step consumes at least one character when the needle
is nonempty, so `s.length` fuel suffices. -/
def pyReplaceAux : Nat → List Char → List Char → List Char → List Char
  | 0, s, _, _ => s
  | fuel + 1, s, needle, repl =>
    match s with
    | [] => []
    | c :: rest =>
      if needle.isPrefixOf s then repl ++ pyReplaceAux fuel (s.drop needle.length) needle repl
      else c :: pyReplaceAux fuel rest needle repl

/-- Python `s.replace(old, new)`; the program only ever calls it with a
nonempty `old`. -/
def pyReplace (s old new : String) : String :=
  String.mk (pyReplaceAux s.data.length s.data old.data new.data)

/-- Split a character list on a separator character, keeping empty pieces
(Python `str.split('\n')`). -/
def splitOnCharAux (sep : Char) : List Char → List Char → List String
  | acc, [] => [String.mk acc.reverse]
  | acc, c :: rest =>
    if c = sep then String.mk acc.reverse :: splitOnCharAux sep [] rest
    else splitOnCharAux sep (c :: acc) rest

/-- Python `s.split(sep)` for a single-character separator. -/
def splitOnChar (sep : Char) (s : String) : List String := splitOnCharAux sep [] s.data

/-! ## Extraction layer (`extract_*` functions, lines 36–214)

The PDF loader (`PDFPlumberLoader` / `pdfplumber`) and the EPUB reader
(`ebooklib`) are external collaborators; they are parameters that either
return parsed content or raise (`Except.error`). -/

/-- The common record shape the extractors produce (a Python dict).  Downstream
code reads exactly the keys `title`, `author`, `creation_date`,
`extracted_text`, each via `.get(key, '')`; a key a path never sets is the
empty string here. -/
structure EbookData where
  title : String
  author : String
  creation_date : String
  extracted_text : String
deriving DecidableEq, Repr

/-- The full dict built by `extract_pdf_data` (lines 97–108): metadata plus
truncated text.  Note that it has no `year` key. -/
structure PdfData where
  title : String
  author : String
  subject : String
  keywords : String
  creation_date : String
  modification_date : String
  producer : String
  creator : String
  num_pages : Nat
  extracted_text : String
deriving DecidableEq, Repr

/-- External PDF collaborators: `PDFPlumberLoader(path).load()` (a list of
page texts) and `pdfplumber.open(path)` (a metadata dict plus page count).
Either may raise. -/
structure PdfServices where
  load : String → Except String (List String)
  openMeta : String → Except String (List (String × String) × Nat)

/-- One EPUB item: its type flag (`get_type() == ebooklib.ITEM_DOCUMENT`) and
`get_content().decode('utf-8')`, which may raise. -/
structure EpubItem where
  is_document : Bool
  get_content : Except String String

/-- The object `epub.read_epub` returns: Dublin-Core title/creator values and
the item list. -/
structure EpubBook where
  titles : List String
  creators : List String
  items : List EpubItem

/-- External EPUB collaborator: `epub.read_epub(path)`, which may raise. -/
structure EpubServices where
  read_epub : String → Except String EpubBook

/-- Python `metadata.get(key, default)` on a metadata dict. -/
def dictGet (d : List (String × String)) (k dflt : String) : String :=
  match d.find? (fun p => p.1 = k) with
  | some p => p.2
  | none => dflt

/-- `extract_pdf_data` (lines 63–110): load page texts, concatenate the first
5 pages (each followed by a newline), read the metadata dict, truncate the text
to 1000 characters.  There is no `try`/`except` in this function: any failure
of the collaborators propagates (`Except.error`). -/
def extract_pdf_data (svc : PdfServices) (pdf_path : String) : Except String PdfData := do
  let documents ← svc.load pdf_path
  let extracted_text := String.join ((documents.take 5).map (fun page => page ++ ("\n")))
  let md ← svc.openMeta pdf_path
  pure
    { title := dictGet md.1 ("Title") ("")
      author := dictGet md.1 ("Author") ("")
      subject := dictGet md.1 ("Subject") ("")
      keywords := dictGet md.1 ("Keywords") ("")
      creation_date := dictGet md.1 ("CreationDate") ("")
      modification_date := dictGet md.1 ("ModDate") ("")
      producer := dictGet md.1 ("Producer") ("")
      creator := dictGet md.1 ("Creator") ("")
      num_pages := md.2
      extracted_text := strTake extracted_text 1000 }

/-- After a `<`: match the regex tail `[^<]+?>` (at least one non-`<`
character already consumed by the caller requirement is relaxed here: the
first character is checked, then the scan runs to the first `>` before any
`<`).  Helper for `stripTags`. -/
def tagEndGo : List Char → Option (List Char)
  | [] => none
  | c :: rest => if c = '>' then some rest else if c = '<' then none else tagEndGo rest

/-- Match `[^<]+?>` after an opening `<`: one non-`<` character, then scan to
the first `>` with no `<` in between.  Returns the rest of the input after the
closing `>`. -/
def findTagEnd : List Char → Option (List Char)
  | [] => none
  | c :: rest => if c = '<' then none else tagEndGo rest

/-- `re.sub('<[^<]+?>', ' ', content)` (line 139), fuel-driven; each step
consumes at least one character, so `length` fuel suffices. -/
def stripTagsAux : Nat → List Char → List Char
  | 0, s => s
  | _ + 1, [] => []
  | fuel + 1, c :: rest =>
    if c = '<' then
      match findTagEnd rest with
      | some rest2 => ' ' :: stripTagsAux fuel rest2
      | none => c :: stripTagsAux fuel rest
    else c :: stripTagsAux fuel rest

/-- The naive HTML-tag stripping of `extract_epub_data`. -/
def stripTags (s : String) : String := String.mk (stripTagsAux s.data.length s.data)

/-- The item loop of `extract_epub_data` (lines 133–143): concatenate the
stripped content of document items, each followed by a newline, stopping after
5 document items; decoding may raise, which propagates to the enclosing
`try`. -/
def epubCollectText : List EpubItem → Nat → Except String String
  | _, 0 => Except.ok ("")
  | [], _ => Except.ok ("")
  | item :: rest, n + 1 =>
    if item.is_document then do
      let content ← item.get_content
      let tailText ← epubCollectText rest n
      pure (stripTags content ++ ("\n") ++ tailText)
    else epubCollectText rest (n + 1)

/-- The body of the `try` block of `extract_epub_data` (lines 122–151). -/
def extract_epub_body (svc : EpubServices) (epub_path : String) : Except String EbookData := do
  let book ← svc.read_epub epub_path
  let title := book.titles.headD ("")
  let author := book.creators.headD ("")
  let extracted_text ← epubCollectText book.items 5
  pure { title := title, author := author, creation_date := ""
         extracted_text := strTake extracted_text 1000 }

/-- `extract_epub_data` (lines 112–159): the whole body runs inside
`try`/`except Exception`; any raise is converted to the fallback dict with
empty title/author and an error-describing text.  The function is total: it
never raises. -/
def extract_epub_data (svc : EpubServices) (epub_path : String) : EbookData :=
  match extract_epub_body svc epub_path with
  | Except.ok d => d
  | Except.error e =>
    { title := "", author := "", creation_date := ""
      extracted_text := ("Error processing file: ") ++ e }

/-- `extract_mobi_azw3_data` (lines 161–188): title/author from the filename,
split at the first `" - "` after stripping the final extension. -/
def extract_mobi_azw3_data (ebook_path : String) : EbookData :=
  let filename := basename ebook_path
  let stem := String.mk
    (if filename.data.contains '.' then beforeLastDot filename.data else filename.data)
  match pySplitFirst (" - ") stem with
  | some p =>
    { title := p.1, author := p.2, creation_date := ""
      extracted_text := ("Limited metadata extraction for ") ++ filename }
  | none =>
    { title := stem, author := ("Unknown"), creation_date := ""
      extracted_text := ("Limited metadata extraction for ") ++ filename }

/-- Projection of the PDF dict onto the keys downstream code reads. -/
def pdfToEbookData (d : PdfData) : EbookData :=
  { title := d.title, author := d.author, creation_date := d.creation_date
    extracted_text := d.extracted_text }

/-- `extract_ebook_data` (lines 190–214): dispatch on the lowercased
extension.  The PDF branch propagates collaborator exceptions (nothing catches
them); every other branch is total. -/
def extract_ebook_data (psvc : PdfServices) (esvc : EpubServices) (ebook_path : String) :
    Except String EbookData :=
  let file_ext := lowerStr (splitextExt ebook_path)
  if file_ext = (".pdf") then (extract_pdf_data psvc ebook_path).map pdfToEbookData
  else if file_ext = (".epub") then Except.ok (extract_epub_data esvc ebook_path)
  else if file_ext = (".mobi") ∨ file_ext = (".azw3") then
    Except.ok (extract_mobi_azw3_data ebook_path)
  else
    Except.ok
      { title := basename ebook_path, author := ("Unknown"), creation_date := ""
        extracted_text := ("Unsupported file format: ") ++ file_ext }

/-! ## Year extraction (`extract_year_from_date`, lines 36–61)

The function is defined in the source but — notably — never called anywhere in
the file. -/

/-- Match the regex group `(20\d{2}|19\d{2})` at the current position. -/
def yearAt : List Char → Option (List Char)
  | c0 :: c1 :: c2 :: c3 :: _ =>
    if ((c0 = '2' ∧ c1 = '0') ∨ (c0 = '1' ∧ c1 = '9')) ∧ c2.isDigit ∧ c3.isDigit then
      some [c0, c1, c2, c3]
    else none
  | _ => none

/-- Leftmost-match scan: try the position matcher at every position, left to
right (the first element of `re.findall`). -/
def scanFor (m : List Char → Option (List Char)) : List Char → Option (List Char)
  | [] => m []
  | s@(_ :: rest) =>
    match m s with
    | some r => some r
    | none => scanFor m rest

/-- Pattern `(20\d{2}|19\d{2})` at a position. -/
def yearPat1 (s : List Char) : Option (List Char) := yearAt s

/-- Pattern `D:(20\d{2}|19\d{2})` at a position. -/
def yearPat2 : List Char → Option (List Char)
  | 'D' :: ':' :: rest => yearAt rest
  | _ => none

/-- Pattern `\d{2}/(20\d{2}|19\d{2})` at a position. -/
def yearPat3 : List Char → Option (List Char)
  | a :: b :: '/' :: rest => if a.isDigit ∧ b.isDigit then yearAt rest else none
  | _ => none

/-- Pattern `(20\d{2}|19\d{2})/\d{2}` at a position. -/
def yearPat4 (s : List Char) : Option (List Char) :=
  match yearAt s with
  | some y =>
    match s.drop 4 with
    | '/' :: a :: b :: _ => if a.isDigit ∧ b.isDigit then some y else none
    | _ => none
  | none => none

/-- `extract_year_from_date` (lines 36–61): empty input gives `""`; otherwise
the four patterns are tried in order and the first match of the first
successful pattern is returned; no match gives `""`. -/
def extract_year_from_date (date_str : String) : String :=
  if date_str = "" then ""
  else
    match scanFor yearPat1 date_str.data with
    | some y => String.mk y
    | none =>
      match scanFor yearPat2 date_str.data with
      | some y => String.mk y
      | none =>
        match scanFor yearPat3 date_str.data with
        | some y => String.mk y
        | none =>
          match scanFor yearPat4 date_str.data with
          | some y => String.mk y
          | none => ""

/-! ## Category registry, canonicalization and file placement
(`organize_ebooks` loop bodies and `copy_ebook`) -/

/-- `category.split('/', 1)[0]`. -/
def firstSegment (category : String) : String :=
  match pySplitFirst ("/") category with
  | some p => p.1
  | none => category

/-- The new-category registration of `organize_ebooks` (lines 621–632 in the
batch branch, identically 661–671 in the individual branch): append the
category if new; if it is hierarchical, additionally append its first-level
prefix when that is nonempty and absent. -/
def registerCategory (existing_categories : List String) (category : String) : List String :=
  if category ∈ existing_categories then existing_categories
  else
    let ex1 := existing_categories ++ [category]
    if category.data.contains '/' then
      let parent_category := firstSegment category
      if parent_category ≠ ("") ∧ parent_category ∉ ex1 then ex1 ++ [parent_category]
      else ex1
    else ex1

/-- `os.path.join` for the shapes the program produces (relative second
component). -/
def pathJoin (a b : String) : String :=
  if a = "" then b
  else if a.data.getLast? = some '/' then a ++ b
  else a ++ ("/") ++ b

/-- A classification result (the `ebook_info` dict produced by
`generate_ebook_dict` or `process_batch`).  `filename_format` is `none` when
the dict has no such key. -/
structure EbookInfo where
  title : String
  author : String
  year : String
  summary : String
  category : String
  original_path : String
  filename_format : Option String := none
deriving DecidableEq, Repr

/-- The filename computation of `copy_ebook` (lines 514–536): sanitize
author/title/year (`/` → `-`); if a *truthy* `filename_format` is present
(Python `if ebook_info.get('filename_format')`, so an empty string does not
count), substitute the `{title}`/`{author}`/`{year}` placeholders and append
the lowercased original extension, else use `"{title} - {author}{ext}"`. -/
def copy_ebook_filename (ebook_path : String) (ebook_info : EbookInfo) : String :=
  let file_ext := lowerStr (splitextExt ebook_path)
  let author := pyReplace ebook_info.author ("/") ("-")
  let title := pyReplace ebook_info.title ("/") ("-")
  let year := pyReplace ebook_info.year ("/") ("-")
  if (ebook_info.filename_format.getD ("")) ≠ ("") then
    let fmt := ebook_info.filename_format.getD ("")
    pyReplace (pyReplace (pyReplace fmt ("{title}") title) ("{author}") author) ("{year}") year
      ++ file_ext
  else title ++ (" - ") ++ author ++ file_ext

/-- `copy_ebook` destination path (lines 514–548): category keeps `/` but has
`:` and `\` replaced; destination is `output_dir/category/filename`.  The
`shutil.copy2` call itself is the excluded filesystem primitive; this is the
path it copies to, which the function returns. -/
def copy_ebook (ebook_path : String) (ebook_info : EbookInfo) (output_dir : String) : String :=
  let category := pyReplace (pyReplace ebook_info.category (":") ("-")) ("\\") ("-")
  pathJoin (pathJoin output_dir category) (copy_ebook_filename ebook_path ebook_info)

/-- The per-result record of the `organize_ebooks` loops. -/
structure OrganizeStepResult where
  existing_categories : List String
  ebook_dict : EbookInfo
  location : String
deriving Repr

/-- The per-result body shared verbatim by both branches of `organize_ebooks`
(lines 607–638 batch, lines 645–677 individual): canonicalize the category
(`:`/`\` → `-`, empty → `Uncategorized`), register it (with single-level
parent promotion), and compute the copy destination for the updated dict. -/
def organizeStep (existing_categories : List String) (output_dir : String)
    (ebook_dict : EbookInfo) : OrganizeStepResult :=
  let category := ebook_dict.category
  let category := pyReplace (pyReplace category (":") ("-")) ("\\") ("-")
  let category := if category = ("") then ("Uncategorized") else category
  let info := { ebook_dict with category := category }
  let existing := registerCategory existing_categories category
  let location := copy_ebook ebook_dict.original_path info output_dir
  ⟨existing, info, location⟩

/-- The spec's own wording of category canonicalization, written for
comparison with `organizeStep`: replace every `:` and every `\` character by
`-`, leave every other character (in particular `/`) unchanged, and collapse
an empty result to `Uncategorized`. -/
def categoryCanonSpec (c : String) : String :=
  let mapped := String.mk (c.data.map (fun ch => if ch = ':' ∨ ch = '\\' then '-' else ch))
  if mapped = "" then "Uncategorized" else mapped

/-! ## The `main` → `organize_ebooks` call binding (lines 681–705) -/

/-- A dynamically-typed Python value, to state what each parameter receives. -/
inductive PyVal where
  | str (s : String)
  | int (z : Int)
deriving DecidableEq, Repr

/-- The five parameters of `organize_ebooks(ebook_directory, categories,
output_dir, additional_instructions="", batch_size=1)` (line 552). -/
structure OrganizeEbooksCall where
  ebook_directory : PyVal
  categories : PyVal
  output_dir : PyVal
  additional_instructions : PyVal
  batch_size : PyVal
deriving DecidableEq, Repr

/-- The call `organize_ebooks(args.ebook_dir, args.output_dir,
additional_instructions, batch_size)` in `main` (line 704), bound positionally
against the parameter list of `organize_ebooks`; `batch_size` keeps its
default `1`. -/
def mainOrganizeCall (ebook_dir output_dir additional_instructions : String)
    (batch_size : Int) : OrganizeEbooksCall :=
  { ebook_directory := PyVal.str ebook_dir
    categories := PyVal.str output_dir
    output_dir := PyVal.str additional_instructions
    additional_instructions := PyVal.int batch_size
    batch_size := PyVal.int 1 }

/-- The batch-branch guard of `organize_ebooks` (line 596):
`batch_size > 1 and len(ebook_files) > 1`. -/
def batchPathTaken (batch_size : Int) (num_files : Nat) : Bool :=
  decide (batch_size > 1 ∧ num_files > 1)

/-! ## Filesystem model for seeding `existing_categories` (lines 572–580) -/

/-- A directory tree: what is on disk under one directory. -/
inductive FSNode where
  | file : FSNode
  | dir (entries : List (String × FSNode)) : FSNode

/-- `os.path.isdir` on an entry. -/
def FSNode.isdir : FSNode → Bool
  | .file => false
  | .dir _ => true

/-- The seeding of `existing_categories` (lines 575–576): the names `d` in
`os.listdir(output_dir)` for which `os.path.isdir(os.path.join(output_dir,
d))` holds.  `entries` is the listing of the output directory. -/
def listExistingCategories (entries : List (String × FSNode)) : List String :=
  (entries.filter (fun e => e.2.isdir)).map (fun e => e.1)

/-- Lines 573–580 with their guard: the listing runs only when the output
directory exists and is a directory (`none` models a missing path). -/
def seedExistingCategories : Option FSNode → List String
  | some (FSNode.dir entries) => listExistingCategories entries
  | _ => []

/-- Look a name up in a directory listing. -/
def lookupEntry : List (String × FSNode) → String → Option FSNode
  | [], _ => none
  | e :: rest, name => if e.1 = name then some e.2 else lookupEntry rest name

/-- Is there a directory at the given relative segment path below `node`? -/
def hasDirAt : FSNode → List String → Bool
  | node, [] => node.isdir
  | FSNode.file, _ :: _ => false
  | FSNode.dir entries, seg :: rest =>
    match lookupEntry entries seg with
    | some child => hasDirAt child rest
    | none => false

/-! ## The batch response protocol
(`re.findall(r'---BOOK \d+ START---(.*?)---BOOK \d+ END---', response, re.DOTALL)`,
line 431) -/

/-- Match a literal character list at the head of the input, returning the
rest. -/
def matchLit : List Char → List Char → Option (List Char)
  | [], s => some s
  | _ :: _, [] => none
  | l :: ls, c :: cs => if c = l then matchLit ls cs else none

/-- Match `\d+` greedily at the head of the input (the following literal of
both markers starts with a non-digit, so greedy maximal munch is exact
here). -/
def matchDigits1 : List Char → Option (List Char)
  | [] => none
  | c :: cs => if c.isDigit then some (cs.dropWhile Char.isDigit) else none

/-- Match `---BOOK \d+ START---` at the head of the input. -/
def matchBookStart (s : List Char) : Option (List Char) :=
  match matchLit (("---BOOK ").data) s with
  | none => none
  | some s1 =>
    match matchDigits1 s1 with
    | none => none
    | some s2 => matchLit ((" START---").data) s2

/-- Match `---BOOK \d+ END---` at the head of the input. -/
def matchBookEnd (s : List Char) : Option (List Char) :=
  match matchLit (("---BOOK ").data) s with
  | none => none
  | some s1 =>
    match matchDigits1 s1 with
    | none => none
    | some s2 => matchLit ((" END---").data) s2

/-- The non-greedy `(.*?)` followed by the end marker: scan forward to the
first position where the end marker matches; the accumulated characters are
the captured group.  Returns the group and the rest after the marker. -/
def scanBody : List Char → List Char → Option (List Char × List Char)
  | [], acc =>
    match matchBookEnd [] with
    | some rest => some (acc.reverse, rest)
    | none => none
  | c :: t, acc =>
    match matchBookEnd (c :: t) with
    | some rest => some (acc.reverse, rest)
    | none => scanBody t (c :: acc)

/-- One `re.findall` pass, fuel-driven: at each position try the start marker;
on success capture the non-greedy body up to the first end marker and continue
after it, otherwise advance one character.  Every iteration consumes at least
one character, so `length` fuel is exact. -/
def findSectionsAux : Nat → List Char → List (List Char)
  | 0, _ => []
  | _ + 1, [] => []
  | fuel + 1, c :: t =>
    match matchBookStart (c :: t) with
    | some rest =>
      match scanBody rest [] with
      | some p => p.1 :: findSectionsAux fuel p.2
      | none => findSectionsAux fuel t
    | none => findSectionsAux fuel t

/-- The parsed book sections of a batch response (line 431). -/
def findSections (response : String) : List String :=
  (findSectionsAux response.data.length response.data).map String.mk

/-! ## The LLM-facing layer -/

/-- All external collaborators of the classification pipeline: the two
document readers and the LLM completion endpoint (`OpenAI().invoke`), the
latter a total prompt-to-response function. -/
structure Services where
  pdf : PdfServices
  epub : EpubServices
  llm : String → String

/-- The single-item prompt of `generate_ebook_dict` (lines 231–278). -/
def singlePrompt (ebook_data : EbookData) (categories : List String)
    (additional_instructions : String) (use_default_categories : Bool)
    (existing_categories : List String) : String :=
  ("The following text and metadata has been extracted from an ebook. Please complete the following tasks:\n\n")
    ++ ("1. Suggest a suitable title for the document based on the metadata and extracted text.\n")
    ++ ("2. Look for the author in the metadata and extracted text, limit to ONE name if multiple are found, or state \x27Unknown\x27 if nothing is found.\n")
    ++ ("3. Identify the publication year if available, or estimate it based on content. Use the format YYYY. If unknown, use \x27Unknown\x27.\n")
    ++ ("4. Attempt to provide a summary of the entire book, not just the extracted text.\n")
    ++ (if use_default_categories then
        ("5. Categorize the document, preferably using a hierarchical directory structure with a \x27/\x27 separator. \n")
          ++ ("For example: \x27Technology/Python\x27, \x27Technology/JavaScript\x27, \x27Fiction/Science Fiction\x27, etc.\n")
          ++ ("This creates a more organized structure with general categories and specific subcategories.\n")
          ++ ("Here are some example main categories for guidance: ") ++ String.intercalate (", ") categories ++ (".\n")
          ++ ("You can use these examples or create more specific or appropriate categories.\n\n")
      else if existing_categories ≠ [] then
        ("5. Determine a suitable category based on the instructions below. \n")
          ++ ("Preferably use a hierarchical structure with \x27/\x27 separator, like \x27Technology/Python\x27 or \x27Fiction/SciFi\x27.\n")
          ++ ("If appropriate, choose from or extend these EXISTING categories: ") ++ String.intercalate (", ") existing_categories ++ (".\n")
          ++ ("Otherwise, create a new category that follows the instructions.\n\n")
      else
        ("5. Determine a suitable category based on the instructions below.\n")
          ++ ("Preferably use a hierarchical structure with \x27/\x27 separator, like \x27Technology/Python\x27.\n\n"))
    ++ (if additional_instructions ≠ "" then
        ("Additional instructions (these override previous instructions if there are conflicts):\n")
          ++ additional_instructions ++ ("\n\n")
      else "")
    ++ ("Please provide the output in the following structured format:\n")
    ++ ("Title: <Title>\nAuthor: <Author>\nYear: <Year>\nSummary: <Summary>\nCategory: <Category>\n\n")
    ++ ("Here is the ebook data:\n")
    ++ ("Title: ") ++ ebook_data.title ++ ("\n")
    ++ ("Author: ") ++ ebook_data.author ++ ("\n")
    ++ ("Creation Date: ") ++ ebook_data.creation_date ++ ("\n\n")
    ++ ("Extracted Text:\n") ++ ebook_data.extracted_text ++ ("\n")

/-- The running parse state of the single-item response loops
(lines 287–312).  `year` is an `Option` because the source only defines the
local variable `year` when a `Year:` line occurs (`'year' in locals()`). -/
structure SingleParseState where
  title : String := ""
  author : String := ""
  year : Option String := none
  summary : String := ""
  category : String := ""
deriving DecidableEq, Repr

/-- One line of the single-item field loop (lines 296–306): last occurrence
of a prefix wins because later lines overwrite. -/
def singleParseLine (st : SingleParseState) (line : String) : SingleParseState :=
  if strStartsWith line ("Title:") then { st with title := pyStrip (strDrop line 6) }
  else if strStartsWith line ("Author:") then { st with author := pyStrip (strDrop line 7) }
  else if strStartsWith line ("Year:") then { st with year := some (pyStrip (strDrop line 5)) }
  else if strStartsWith line ("Summary:") then { st with summary := pyStrip (strDrop line 8) }
  else if strStartsWith line ("Category:") then { st with category := pyStrip (strDrop line 9) }
  else st

/-- `generate_ebook_dict` (lines 216–328): extract (exceptions propagate —
nothing catches them here), prompt the LLM once, scan response lines for the
field prefixes, fall back to extracted metadata for empty title/author, and
attach a filename format only when truthy. -/
def generate_ebook_dict (s : Services) (ebook_path : String) (categories : List String)
    (additional_instructions : String) (use_default_categories : Bool)
    (existing_categories : List String) : Except String EbookInfo := do
  let ebook_data ← extract_ebook_data s.pdf s.epub ebook_path
  let response := s.llm
    (singlePrompt ebook_data categories additional_instructions use_default_categories
      existing_categories)
  let lines := splitOnChar (Char.ofNat 10) response
  let filename_format := lines.foldl
    (fun acc line =>
      if strStartsWith line ("Filename:") ∨ strStartsWith line ("Format:") then
        match pySplitFirst (":") line with
        | some p => some (pyStrip p.2)
        | none => acc
      else acc)
    (none : Option String)
  let st := lines.foldl singleParseLine {}
  pure
    { title := if st.title = "" then ebook_data.title else st.title
      author := if st.author = "" then ebook_data.author else st.author
      year :=
        match st.year with
        | some y => y
        | none => ("Unknown")
      summary := st.summary
      category := st.category
      original_path := ebook_path
      filename_format :=
        match filename_format with
        | some f => if f = "" then none else some f
        | none => none }

/-- The per-section defaults of the batch parse loop (lines 452–459). -/
def sectionDefaults (path : String) : EbookInfo :=
  { title := "", author := ("Unknown"), year := ("Unknown"), summary := ""
    category := ("Uncategorized"), original_path := path, filename_format := none }

/-- One line of the batch parse loop (lines 463–475), with the per-field
truthiness fallbacks of the source. -/
def parseSectionLine (path : String) (info : EbookInfo) (line : String) : EbookInfo :=
  if strStartsWith line ("Title:") then
    let v := pyStrip (strDrop line 6)
    { info with title := if v = "" then basename path else v }
  else if strStartsWith line ("Author:") then
    let v := pyStrip (strDrop line 7)
    { info with author := if v = "" then ("Unknown") else v }
  else if strStartsWith line ("Year:") then
    let v := pyStrip (strDrop line 5)
    { info with year := if v = "" then ("Unknown") else v }
  else if strStartsWith line ("Summary:") then
    { info with summary := pyStrip (strDrop line 8) }
  else if strStartsWith line ("Category:") then
    let v := pyStrip (strDrop line 9)
    { info with category := if v = "" then ("Uncategorized") else v }
  else if strStartsWith line ("Filename:") ∨ strStartsWith line ("Format:") then
    match pySplitFirst (":") line with
    | some p => { info with filename_format := some (pyStrip p.2) }
    | none => info
  else info

/-- One recovered section of the batch parse (lines 447–484): defaults, then
the line loop, then the fallbacks to the originally-extracted metadata. -/
def parseSection (path : String) (original_data : EbookData) (sectionText : String) : EbookInfo :=
  let lines := splitOnChar (Char.ofNat 10) (pyStrip sectionText)
  let info := lines.foldl (parseSectionLine path) (sectionDefaults path)
  let info :=
    if info.title = "" then
      { info with
        title := if original_data.title = "" then basename path else original_data.title }
    else info
  if info.author = ("Unknown") ∧ original_data.author ≠ "" then
    { info with author := original_data.author }
  else info

/-- The metadata-only default result for books beyond the recovered sections
(lines 487–498). -/
def metadataOnlyInfo (path : String) (original_data : EbookData) : EbookInfo :=
  { title := if original_data.title = "" then basename path else original_data.title
    author := if original_data.author = "" then ("Unknown") else original_data.author
    year := ("Unknown"), summary := ("No summary available")
    category := ("Uncategorized"), original_path := path, filename_format := none }

/-- The numbered per-ebook data blocks of the batch prompt (lines 411–421),
numbering from 1. -/
def batchDataBlocks : Nat → List (String × EbookData) → String
  | _, [] => ""
  | i, e :: rest =>
    ("EBOOK ") ++ toString i ++ (" DATA:\nFile: ") ++ basename e.1
      ++ ("\nTitle: ") ++ e.2.title
      ++ ("\nAuthor: ") ++ e.2.author
      ++ ("\nCreation Date: ") ++ e.2.creation_date
      ++ ("\n\nExtracted Text:\n") ++ e.2.extracted_text
      ++ ("\n\n------------------\n\n")
      ++ batchDataBlocks (i + 1) rest

/-- The batch prompt of `process_batch` (lines 353–421). -/
def batchPrompt (ebooks_data : List (String × EbookData)) (categories : List String)
    (additional_instructions : String) (use_default_categories : Bool)
    (existing_categories : List String) : String :=
  ("I will provide you with data from ") ++ toString ebooks_data.length
    ++ (" ebooks. Your task is to analyze each ebook and provide structured information.\n\n")
    ++ ("For each book, you must:\n")
    ++ ("1. Identify a suitable title based on the metadata and text\n")
    ++ ("2. Identify ONE author name, or state \x27Unknown\x27 if not found\n")
    ++ ("3. Identify the publication year (YYYY format) or estimate it, or use \x27Unknown\x27\n")
    ++ ("4. Write a concise summary of the book\n")
    ++ (if use_default_categories then
        ("5. Categorize each document, preferably using a hierarchical directory structure with a \x27/\x27 separator\n")
          ++ ("For example: \x27Technology/Python\x27, \x27Technology/JavaScript\x27, \x27Fiction/Science Fiction\x27, etc.\n")
          ++ ("This creates a more organized structure with general categories and specific subcategories.\n")
          ++ ("Example main categories: ") ++ String.intercalate (", ") (categories.take 10) ++ ("...\n")
          ++ ("You can use these examples or create more specific categories.\n\n")
      else if existing_categories ≠ [] then
        ("5. Determine a suitable category based on the instructions below.\n")
          ++ ("Preferably use a hierarchical structure with \x27/\x27 separator, like \x27Technology/Python\x27\n")
          ++ ("If appropriate, choose from or extend these EXISTING categories: ") ++ String.intercalate (", ") (existing_categories.take 10) ++ ("...\n")
          ++ ("Otherwise, create a new category that follows the instructions.\n\n")
      else
        ("5. Determine a suitable category based on the instructions below.\n")
          ++ ("Preferably use a hierarchical structure with \x27/\x27 separator, like \x27Technology/Python\x27.\n\n"))
    ++ (if additional_instructions ≠ "" then
        ("Additional instructions (these override previous instructions if there are conflicts):\n")
          ++ additional_instructions ++ ("\n\n")
      else "")
    ++ ("For each book, you MUST respond using EXACTLY this format with no deviations:\n")
    ++ ("---BOOK 1 START---\n")
    ++ ("Title: The exact book title\nAuthor: Author name\nYear: Publication year (YYYY)\nSummary: A summary of the book\nCategory: The category (preferably with hierarchy like Technology/Python)\n")
    ++ ("---BOOK 1 END---\n\n")
    ++ ("---BOOK 2 START---\n")
    ++ ("Title: The exact book title\nAuthor: Author name\nYear: Publication year (YYYY)\nSummary: A summary of the book\nCategory: The category (preferably with hierarchy like Technology/Python)\n")
    ++ ("---BOOK 2 END---\n\n")
    ++ ("And so on for each book. The number in the START and END tags MUST match the book number.\n")
    ++ ("It\x27s critical that you maintain this EXACT format for parsing.\n\n")
    ++ batchDataBlocks 1 ebooks_data

/-- `process_batch` (lines 330–500; its `max_retries` parameter is accepted
and unused in the source and omitted here): extract every book (exceptions
propagate), prompt the LLM once, parse out the delimited sections; zero
sections means one `generate_ebook_dict` call per path; otherwise sections
pair with paths positionally, with metadata-only defaults for paths beyond
the recovered sections. -/
def process_batch (s : Services) (ebook_paths : List String) (categories : List String)
    (additional_instructions : String) (use_default_categories : Bool)
    (existing_categories : List String) : Except String (List EbookInfo) := do
  let ebooks_data ← ebook_paths.mapM (fun path => do
    let d ← extract_ebook_data s.pdf s.epub path
    pure (path, d))
  let response := s.llm
    (batchPrompt ebooks_data categories additional_instructions use_default_categories
      existing_categories)
  let book_sections := findSections response
  if book_sections.length = 0 then
    ebook_paths.mapM (fun path =>
      generate_ebook_dict s path categories additional_instructions use_default_categories
        existing_categories)
  else
    let results := (book_sections.zip ebooks_data).map (fun p => parseSection p.2.1 p.2.2 p.1)
    let extras := (ebooks_data.drop book_sections.length).map (fun e => metadataOnlyInfo e.1 e.2)
    pure (results ++ extras)

/-! ## Synthetic well-formed batch responses (for the round-trip theorems) -/

/-- One well-formed section: `---BOOK t1 START---` body `---BOOK t2 END---`. -/
def mkSection (t1 t2 body : List Char) : List Char :=
  ("---BOOK ").data ++ t1 ++ (" START---").data ++ body ++ ("---BOOK ").data ++ t2
    ++ (" END---").data

/-- A response containing exactly the given well-formed sections (with
arbitrary numeric tags), each preceded by arbitrary separator text and with
arbitrary trailing text after the last one. -/
def mkResponseJ : List (List Char × ((List Char × List Char) × List Char)) →
    List Char → List Char
  | [], trail => trail
  | item :: rest, trail =>
    item.1 ++ (mkSection item.2.1.1 item.2.1.2 item.2.2 ++ mkResponseJ rest trail)

/-- A nonempty all-digit tag (what `\d+` matches). -/
def digitTag (t : List Char) : Prop := t ≠ [] ∧ ∀ c ∈ t, c.isDigit = true

/-- A body in which the marker prefix `---BOOK` does not occur, so the
non-greedy capture stops exactly at the section's own end marker. -/
def goodBody (b : List Char) : Prop := ¬ (("---BOOK").data <:+: b)

/-- A fully well-formed tagged section. -/
def goodSection (sec : (List Char × List Char) × List Char) : Prop :=
  digitTag sec.1.1 ∧ digitTag sec.1.2 ∧ goodBody sec.2

instance (t : List Char) : Decidable (digitTag t) := by
  unfold digitTag; infer_instance

instance (b : List Char) : Decidable (goodBody b) := by
  unfold goodBody; infer_instance

instance (sec : (List Char × List Char) × List Char) : Decidable (goodSection sec) := by
  unfold goodSection; infer_instance

/-- A well-formed response item: marker-free separator text plus a
well-formed tagged section. -/
def goodItem (item : List Char × ((List Char × List Char) × List Char)) : Prop :=
  goodBody item.1 ∧ goodSection item.2

instance (item : List Char × ((List Char × List Char) × List Char)) :
    Decidable (goodItem item) := by
  unfold goodItem; infer_instance

/-! ## Concrete fixtures used by counterexamples and witnesses -/

/-- PDF collaborators that always raise. -/
def alwaysFailPdf : PdfServices where
  load := fun _ => Except.error ("boom")
  openMeta := fun _ => Except.error ("boom")

/-- EPUB collaborator that always raises. -/
def alwaysFailEpub : EpubServices where
  read_epub := fun _ => Except.error ("boom")

/-- Services whose LLM returns a fixed response; the document readers always
raise (irrelevant for `.mobi` inputs, whose extraction is pure). -/
def respServices (r : String) : Services where
  pdf := alwaysFailPdf
  epub := alwaysFailEpub
  llm := fun _ => r

/-- An output-directory listing with a nested directory `A/B` and a stray
file. -/
def demoOutputDir : List (String × FSNode) :=
  [(("A"), FSNode.dir [(("B"), FSNode.dir [])]), (("notes.txt"), FSNode.file)]

/-- A classification result carrying the spec's canonicalization example. -/
def demoInfoSciFi : EbookInfo :=
  { title := ("T"), author := ("A"), year := ("2000"), summary := ""
    category := ("Sci-Fi: Classics\\Old"), original_path := ("t.epub")
    filename_format := none }

/-- A classification result with an empty category. -/
def demoInfoEmptyCat : EbookInfo :=
  { title := ("T"), author := ("A"), year := ("2000"), summary := ""
    category := "", original_path := ("t.epub"), filename_format := none }

/-- A classification result matching claim C9's premises. -/
def demoInfoDune : EbookInfo :=
  { title := ("Dune"), author := ("Herbert"), year := ("1965"), summary := ""
    category := ("SciFi"), original_path := ("x/b.epub")
    filename_format := some ("{year} - {title} - {author}") }

/-- Two well-formed tagged section bodies for the batch round-trip. -/
def demoBody1 : List Char :=
  ("\nTitle: Alpha\nAuthor: Ann\nYear: 2001\nSummary: S1\nCategory: Tech/Go\n").data

/-- Second demo body. -/
def demoBody2 : List Char :=
  ("\nTitle: Beta\nAuthor: Bob\nYear: 2002\nSummary: S2\nCategory: Fiction\n").data

/-- Two tagged sections with blank-line separators. -/
def demoItems2 : List (List Char × ((List Char × List Char) × List Char)) :=
  [(("\n\n").data, (((("1")).data, (("1")).data), demoBody1)),
   (("\n\n").data, (((("2")).data, (("2")).data), demoBody2))]

/-- One tagged section with a blank-line separator. -/
def demoItems1 : List (List Char × ((List Char × List Char) × List Char)) :=
  [(("\n\n").data, (((("1")).data, (("1")).data), demoBody1))]

/-! ## Theorems -/

/-! ### Helper lemmas: single-character `str.replace` is a character map -/

/-- `pyReplaceAux` with a single-character needle and replacement is a plain
character map, given enough fuel. -/
theorem pyReplaceAux_single (a b : Char) (l : List Char) :
    ∀ fuel : Nat, l.length ≤ fuel →
      pyReplaceAux fuel l [a] [b] = l.map (fun c => if c = a then b else c) := by
  induction l with
  | nil => intro fuel _; cases fuel <;> rfl
  | cons c rest ih =>
    intro fuel h
    cases fuel with
    | zero => exact absurd h (by simp)
    | succ fuel =>
      have hr : rest.length ≤ fuel := by
        simp only [List.length_cons] at h
        omega
      by_cases hca : a = c
      · subst hca
        simp [pyReplaceAux, List.isPrefixOf, ih fuel hr]
      · have hcb : ¬c = a := fun h => hca h.symm
        simp [pyReplaceAux, List.isPrefixOf, hca, hcb, ih fuel hr]

/-- `str.replace` with single-character arguments is a character map. -/
theorem pyReplace_single_char (a b : Char) (s old new : String)
    (ho : old.data = [a]) (hn : new.data = [b]) :
    pyReplace s old new = String.mk (s.data.map (fun c => if c = a then b else c)) := by
  unfold pyReplace
  rw [ho, hn, pyReplaceAux_single a b s.data s.data.length (le_refl _)]

/-! ### C1 — extraction error handling -/

/-- C1 counterexample.  The claim says PDF and EPUB extraction exceptions are
caught inside the extractor and converted to a filename-derived fallback
record.  At a PDF whose loader raises, `extract_ebook_data` itself returns the
error (nothing catches it), and at an EPUB whose reader raises the fallback
record has an empty title — not the filename-derived title `"Title"` that the
MOBI splitting rule would produce. -/
theorem extraction_boundary_cex :
    extract_ebook_data alwaysFailPdf alwaysFailEpub ("Title - Author.pdf")
      = Except.error ("boom")
    ∧ extract_ebook_data alwaysFailPdf alwaysFailEpub ("Title - Author.epub")
        = Except.ok { title := "", author := "", creation_date := ""
                      extracted_text := ("Error processing file: boom") }
    ∧ (extract_mobi_azw3_data ("Title - Author.epub")).title = ("Title") :=
  ⟨rfl, rfl, rfl⟩

/-- C1 amended.  Only EPUB extraction catches exceptions: a raising EPUB
reader yields the fallback record with empty title/author and the
error-describing text (not a filename-derived record), and the walk can
continue; a raising PDF loader propagates its exception out of
`extract_ebook_data`. -/
theorem extraction_error_handling (psvc : PdfServices) (esvc : EpubServices)
    (ppath epath e1 e2 : String)
    (hp : lowerStr (splitextExt ppath) = (".pdf"))
    (he : lowerStr (splitextExt epath) = (".epub"))
    (h1 : psvc.load ppath = Except.error e1)
    (h2 : esvc.read_epub epath = Except.error e2) :
    extract_ebook_data psvc esvc ppath = Except.error e1
    ∧ extract_ebook_data psvc esvc epath
        = Except.ok { title := "", author := "", creation_date := ""
                      extracted_text := ("Error processing file: ") ++ e2 } := by
  constructor
  · have hpdf : extract_pdf_data psvc ppath = Except.error e1 := by
      unfold extract_pdf_data
      rw [h1]
      rfl
    simp [extract_ebook_data, hp, hpdf, Except.map]
  · have hepub : extract_epub_body esvc epath = Except.error e2 := by
      unfold extract_epub_body
      rw [h2]
      rfl
    have : extract_epub_data esvc epath
        = { title := "", author := "", creation_date := ""
            extracted_text := ("Error processing file: ") ++ e2 } := by
      unfold extract_epub_data
      rw [hepub]
    simp [extract_ebook_data, he, this]

/-- C1 amended, witness at concrete failing collaborators. -/
theorem extraction_error_handling_witness :
    extract_ebook_data alwaysFailPdf alwaysFailEpub ("a.pdf") = Except.error ("boom")
    ∧ extract_ebook_data alwaysFailPdf alwaysFailEpub ("b.epub")
        = Except.ok { title := "", author := "", creation_date := ""
                      extracted_text := ("Error processing file: ") ++ ("boom") } :=
  extraction_error_handling alwaysFailPdf alwaysFailEpub ("a.pdf") ("b.epub") ("boom") ("boom")
    rfl rfl rfl rfl

/-! ### C5 — category canonicalization -/

/-- C5.  Every result the `organize_ebooks` loop processes has its category
post-processed exactly as the spec words it: each `:` and `\` becomes `-`,
all other characters (in particular `/`) are unchanged, and an empty result
collapses to `Uncategorized`; in particular the spec's example value. -/
theorem organize_category_canonicalization :
    (∀ (ex : List String) (out : String) (info : EbookInfo),
        (organizeStep ex out info).ebook_dict.category = categoryCanonSpec info.category)
    ∧ (organizeStep [] ("out") demoInfoSciFi).ebook_dict.category = ("Sci-Fi- Classics-Old")
    ∧ (organizeStep [] ("out") demoInfoEmptyCat).ebook_dict.category = ("Uncategorized") := by
  refine ⟨fun ex out info => ?_, rfl, rfl⟩
  show (let category := info.category
        let category := pyReplace (pyReplace category (":") ("-")) ("\\") ("-")
        let category := if category = ("") then ("Uncategorized") else category
        category) = categoryCanonSpec info.category
  simp only []
  rw [pyReplace_single_char ':' '-' info.category (":") ("-") rfl rfl,
    pyReplace_single_char '\\' '-' _ ("\\") ("-") rfl rfl]
  unfold categoryCanonSpec
  simp only [List.map_map]
  have hfg : ((fun c => if c = '\\' then '-' else c) ∘ fun c => if c = ':' then '-' else c)
      = (fun ch => if ch = ':' ∨ ch = '\\' then '-' else ch) := by
    funext c
    by_cases hc : c = ':'
    · subst hc; rfl
    · by_cases hb : c = '\\'
      · subst hb; rfl
      · simp [Function.comp, hc, hb]
  rw [hfg]

/-! ### C7 — registry parent promotion -/

/-- C7.  Registering `Tech/Go` when `Tech` is absent appends both `Tech/Go`
and its first-level prefix `Tech`; only the first-level prefix is promoted,
so registering `A/B/C` never registers `A/B`. -/
theorem register_parent_promotion (l : List String)
    (h1 : ("Tech") ∉ l) (h2 : ("Tech/Go") ∉ l)
    (h3 : ("A/B/C") ∉ l) (h4 : ("A/B") ∉ l) :
    registerCategory l ("Tech/Go") = l ++ [("Tech/Go"), ("Tech")]
    ∧ ("A/B") ∉ registerCategory l ("A/B/C") := by
  constructor
  · unfold registerCategory
    rw [if_neg h2]
    simp only []
    rw [if_pos (by decide : (("Tech/Go" : String)).data.contains '/' = true)]
    rw [show firstSegment ("Tech/Go") = ("Tech") from rfl]
    rw [if_pos ?cond]
    case cond =>
      refine ⟨by decide, fun hmem => ?_⟩
      rcases List.mem_append.mp hmem with hl | hr
      · exact h1 hl
      · simp at hr
    simp
  · unfold registerCategory
    rw [if_neg h3]
    simp only []
    rw [if_pos (by decide : (("A/B/C" : String)).data.contains '/' = true)]
    rw [show firstSegment ("A/B/C") = ("A") from rfl]
    by_cases hA : (("A" : String)) ≠ ("") ∧ ("A") ∉ l ++ [("A/B/C")]
    · rw [if_pos hA]
      intro hmem
      rcases List.mem_append.mp hmem with hl | hr
      · rcases List.mem_append.mp hl with hll | hlr
        · exact h4 hll
        · simp at hlr
      · simp at hr
    · rw [if_neg hA]
      intro hmem
      rcases List.mem_append.mp hmem with hl | hr
      · exact h4 hl
      · simp at hr

/-- C7 witness at a concrete registry. -/
theorem register_parent_promotion_witness :
    registerCategory [("X")] ("Tech/Go") = [("X"), ("Tech/Go"), ("Tech")]
    ∧ ("A/B") ∉ registerCategory [("X")] ("A/B/C") := by
  have h := register_parent_promotion [("X")] (by decide) (by decide) (by decide) (by decide)
  exact ⟨h.1, h.2⟩

/-! ### C8 — year extraction (dead code) -/

/-- C8.  Evaluating `extract_year_from_date` itself: a `D:20230615...`
creation date does map to `2023`, and the bare-4-digit pattern is tried first
(leftmost match of the first pattern wins).  The extractor, however, never
calls this function — see the claim record. -/
theorem extract_year_from_date_eval :
    extract_year_from_date ("D:20230615120000") = ("2023")
    ∧ extract_year_from_date ("x2005 D:1999") = ("2005")
    ∧ extract_year_from_date ("no year here") = "" :=
  ⟨rfl, rfl, rfl⟩

/-! ### C9 — filename templating -/

/-- C9.  With a custom filename format, each placeholder is substituted and
the lowercased original extension appended; with no (truthy) format the
filename is the sanitized `"{title} - {author}{ext}"`. -/
theorem filename_templating (path : String) (info : EbookInfo)
    (hext : lowerStr (splitextExt path) = (".epub"))
    (hfmt : info.filename_format = some ("{year} - {title} - {author}"))
    (ht : info.title = ("Dune")) (ha : info.author = ("Herbert"))
    (hy : info.year = ("1965")) :
    copy_ebook_filename path info = ("1965 - Dune - Herbert.epub")
    ∧ ∀ (p2 : String) (i2 : EbookInfo), i2.filename_format = none →
        copy_ebook_filename p2 i2
          = pyReplace i2.title ("/") ("-") ++ (" - ") ++ pyReplace i2.author ("/") ("-")
            ++ lowerStr (splitextExt p2) := by
  constructor
  · unfold copy_ebook_filename
    rw [hext, hfmt, ht, ha, hy]
    rfl
  · intro p2 i2 h2
    unfold copy_ebook_filename
    rw [h2]
    rfl

/-- C9 witness at a concrete record. -/
theorem filename_templating_witness :
    copy_ebook_filename ("x/b.epub") demoInfoDune = ("1965 - Dune - Herbert.epub") :=
  (filename_templating ("x/b.epub") demoInfoDune rfl rfl rfl rfl rfl).1

/-! ### C10 — the `main` call binding -/

/-- C10.  `main` binds `organize_ebooks`' parameters positionally shifted:
the CLI output directory lands on `categories`, the instructions text on
`output_dir`, the CLI batch size on `additional_instructions`, and
`batch_size` keeps its default `1` — under which the batch branch guard is
never taken. -/
theorem main_positional_binding :
    (∀ (e o i : String) (b : Int),
        (mainOrganizeCall e o i b).categories = PyVal.str o
        ∧ (mainOrganizeCall e o i b).output_dir = PyVal.str i
        ∧ (mainOrganizeCall e o i b).additional_instructions = PyVal.int b
        ∧ (mainOrganizeCall e o i b).batch_size = PyVal.int 1)
    ∧ (∀ n : Nat, batchPathTaken 1 n = false) := by
  refine ⟨fun e o i b => ⟨rfl, rfl, rfl, rfl⟩, fun n => ?_⟩
  simp [batchPathTaken]

/-! ### C6 — seeding the existing categories -/

/-- Seeded names are entry names. -/
theorem mem_listExistingCategories {entries : List (String × FSNode)} {x : String}
    (h : x ∈ listExistingCategories entries) : x ∈ entries.map Prod.fst := by
  unfold listExistingCategories at h
  rcases List.mem_map.mp h with ⟨p, hp, he⟩
  exact List.mem_map.mpr ⟨p, (List.mem_filter.mp hp).1, he⟩

/-- Unfolding `hasDirAt` one level below a directory. -/
theorem hasDirAt_single (entries : List (String × FSNode)) (x : String) :
    hasDirAt (FSNode.dir entries) [x]
      = (match lookupEntry entries x with
        | some child => child.isdir
        | none => false) := by
  cases h : lookupEntry entries x <;> simp [hasDirAt, h]

/-- C6 counterexample.  In an output directory with a nested directory `A/B`,
seeding records only `A`: the nested relative path `A/B` is not recorded,
although the claim says every directory's relative path is, including nested
levels. -/
theorem seeding_not_recursive_cex :
    hasDirAt (FSNode.dir demoOutputDir) [("A"), ("B")] = true
    ∧ seedExistingCategories (some (FSNode.dir demoOutputDir)) = [("A")]
    ∧ ("A/B") ∉ seedExistingCategories (some (FSNode.dir demoOutputDir)) := by
  refine ⟨rfl, rfl, by decide⟩

/-- C6 amended.  Seeding does not walk recursively: with distinct entry
names, the recorded categories are exactly the names of the immediate
subdirectories of the output directory. -/
theorem seeding_records_immediate_dirs (entries : List (String × FSNode))
    (hnd : (entries.map Prod.fst).Nodup) :
    ∀ x : String,
      x ∈ listExistingCategories entries ↔ hasDirAt (FSNode.dir entries) [x] = true := by
  induction entries with
  | nil =>
    intro x
    simp [listExistingCategories, hasDirAt_single, lookupEntry]
  | cons e rest ih =>
    intro x
    obtain ⟨n, node⟩ := e
    simp only [List.map_cons, List.nodup_cons] at hnd
    rw [hasDirAt_single]
    by_cases hx : n = x
    · subst hx
      simp only [lookupEntry, if_pos rfl]
      constructor
      · intro hmem
        unfold listExistingCategories at hmem
        rcases List.mem_map.mp hmem with ⟨p, hp, he⟩
        rcases List.mem_filter.mp hp with ⟨hpmem, hpdir⟩
        rcases List.mem_cons.mp hpmem with hph | hpt
        · subst hph; exact hpdir
        · exact absurd (he ▸ List.mem_map.mpr ⟨p, hpt, rfl⟩) hnd.1
      · intro hdir
        unfold listExistingCategories
        exact List.mem_map.mpr ⟨(n, node), List.mem_filter.mpr ⟨List.mem_cons_self _ _, hdir⟩, rfl⟩
    · simp only [lookupEntry, if_neg hx]
      rw [← hasDirAt_single]
      have step : x ∈ listExistingCategories ((n, node) :: rest)
          ↔ x ∈ listExistingCategories rest := by
        unfold listExistingCategories
        rw [List.filter_cons]
        by_cases hdir : node.isdir = true
        · rw [if_pos hdir, List.map_cons, List.mem_cons]
          constructor
          · rintro (hh | hh)
            · exact absurd hh.symm hx
            · exact hh
          · exact Or.inr
        · rw [if_neg hdir]
      rw [step]
      exact ih hnd.2 x

/-- C6 amended, witness at the demo listing. -/
theorem seeding_records_immediate_dirs_witness :
    ("A") ∈ listExistingCategories demoOutputDir
      ↔ hasDirAt (FSNode.dir demoOutputDir) [("A")] = true :=
  seeding_records_immediate_dirs demoOutputDir (by decide) ("A")

/-! ### Helper lemmas: the section regex on well-formed responses -/

/-- `matchLit` succeeds on its own literal. -/
theorem matchLit_append (l r : List Char) : matchLit l (l ++ r) = some r := by
  induction l with
  | nil => rfl
  | cons a l ih => simp [matchLit, ih]

/-- A successful `matchLit` exhibits the literal as a prefix. -/
theorem matchLit_some {l s r : List Char} (h : matchLit l s = some r) : s = l ++ r := by
  induction l generalizing s with
  | nil =>
    simp only [matchLit, Option.some.injEq] at h
    simpa using h
  | cons a l ih =>
    cases s with
    | nil => simp [matchLit] at h
    | cons c cs =>
      simp only [matchLit] at h
      by_cases hca : c = a
      · rw [if_pos hca] at h
        simp [hca, ih h]
      · rw [if_neg hca] at h
        exact absurd h (by simp)

/-- `\d+` consumes exactly a digit tag when the continuation starts with a
non-digit. -/
theorem matchDigits1_tag (t s : List Char) (ht : digitTag t)
    (hs : s.dropWhile Char.isDigit = s) : matchDigits1 (t ++ s) = some s := by
  obtain ⟨hne, hall⟩ := ht
  cases t with
  | nil => exact absurd rfl hne
  | cons c t2 =>
    have hc : c.isDigit = true := hall c (List.mem_cons_self _ _)
    have ht2 : t2.dropWhile Char.isDigit = [] :=
      List.dropWhile_eq_nil_iff.mpr (fun a ha => hall a (List.mem_cons_of_mem _ ha))
    rw [List.cons_append]
    simp [matchDigits1, hc, List.dropWhile_append, ht2, hs]

/-- The `START` tail begins with a space, so it stops the digit munch. -/
theorem dropWhile_startTail (r : List Char) :
    ((" START---").data ++ r).dropWhile Char.isDigit = (" START---").data ++ r := by
  rw [show ((" START---").data : List Char) ++ r = ' ' :: (("START---").data ++ r) from rfl]
  simp [List.dropWhile_cons]

/-- The `END` tail begins with a space, so it stops the digit munch. -/
theorem dropWhile_endTail (r : List Char) :
    ((" END---").data ++ r).dropWhile Char.isDigit = (" END---").data ++ r := by
  rw [show ((" END---").data : List Char) ++ r = ' ' :: (("END---").data ++ r) from rfl]
  simp [List.dropWhile_cons]

/-- The start marker matches exactly at a well-formed section head. -/
theorem matchBookStart_mk (t r : List Char) (ht : digitTag t) :
    matchBookStart ((("---BOOK ").data) ++ (t ++ (((" START---").data) ++ r)))
      = some r := by
  unfold matchBookStart
  rw [matchLit_append]
  simp only [matchDigits1_tag t (((" START---").data) ++ r) ht (dropWhile_startTail r)]
  exact matchLit_append _ _

/-- The end marker matches exactly at a well-formed section tail. -/
theorem matchBookEnd_mk (t r : List Char) (ht : digitTag t) :
    matchBookEnd ((("---BOOK ").data) ++ (t ++ (((" END---").data) ++ r)))
      = some r := by
  unfold matchBookEnd
  rw [matchLit_append]
  simp only [matchDigits1_tag t (((" END---").data) ++ r) ht (dropWhile_endTail r)]
  exact matchLit_append _ _

/-- Core boundary fact: the marker literal `---BOOK ` cannot start inside a
nonempty `---BOOK`-free chunk `x` that is followed by a real marker — it
would have to lie inside `x` or span the boundary, and no nonempty-drop
suffix of `---BOOK ` is a prefix of it. -/
theorem marker_boundary_false (x y s1 : List Char) (hx : x ≠ [])
    (hgood : ¬ (("---BOOK").data <:+: x))
    (heq : x ++ ((("---BOOK ").data) ++ y) = ("---BOOK ").data ++ s1) : False := by
  have hl8 : (("---BOOK ").data).length = 8 := rfl
  by_cases h8 : 8 ≤ x.length
  · have hcong := congrArg (List.take 8) heq
    rw [List.take_append_of_le_length h8] at hcong
    rw [List.take_left' hl8] at hcong
    have hpre : (("---BOOK").data) <+: x := by
      have h1 : (("---BOOK").data) <+: x.take 8 := by
        rw [hcong]; decide
      exact h1.trans (List.take_prefix 8 x)
    exact hgood (List.IsPrefix.isInfix hpre)
  · have hlt : x.length ≤ 7 := by omega
    have hcong := congrArg (List.drop x.length) heq
    rw [List.drop_left] at hcong
    rw [List.drop_append_of_le_length (by rw [hl8]; omega)] at hcong
    have key : (("---BOOK ").data).drop x.length <+: ("---BOOK ").data := by
      have h1 : ((("---BOOK ").data).drop x.length ++ s1).take (8 - x.length)
          = (("---BOOK ").data).drop x.length :=
        List.take_left' (by rw [List.length_drop, hl8])
      have h2 : (((("---BOOK ").data) ++ y)).take (8 - x.length)
          = (("---BOOK ").data).take (8 - x.length) :=
        List.take_append_of_le_length (by rw [hl8]; omega)
      have h3 : (("---BOOK ").data).drop x.length
          = (("---BOOK ").data).take (8 - x.length) := by
        rw [← h1, ← hcong]
        exact h2
      rw [h3]
      exact List.take_prefix _ _
    have hpos : 1 ≤ x.length := List.length_pos.mpr hx
    generalize hL : x.length = L at key hpos hlt
    interval_cases L <;> revert key <;> decide

/-- Inside a body that does not contain `---BOOK`, the end marker cannot
match — not even spanning the boundary into the following real marker. -/
theorem matchBookEnd_none (x y : List Char) (hx : x ≠ [])
    (hgood : ¬ (("---BOOK").data <:+: x)) :
    matchBookEnd (x ++ ((("---BOOK ").data) ++ y)) = none := by
  cases hml : matchLit (("---BOOK ").data) (x ++ ((("---BOOK ").data) ++ y)) with
  | none => unfold matchBookEnd; rw [hml]
  | some s1 =>
    exact (marker_boundary_false x y s1 hx hgood (matchLit_some hml)).elim

/-- Likewise, the start marker cannot match inside a `---BOOK`-free chunk that
is followed by a real marker. -/
theorem matchBookStart_none (x y : List Char) (hx : x ≠ [])
    (hgood : ¬ (("---BOOK").data <:+: x)) :
    matchBookStart (x ++ ((("---BOOK ").data) ++ y)) = none := by
  cases hml : matchLit (("---BOOK ").data) (x ++ ((("---BOOK ").data) ++ y)) with
  | none => unfold matchBookStart; rw [hml]
  | some s1 =>
    exact (marker_boundary_false x y s1 hx hgood (matchLit_some hml)).elim

/-- A successful start-marker match begins with the marker literal. -/
theorem matchBookStart_some_prefix {s r : List Char} (h : matchBookStart s = some r) :
    (("---BOOK ").data) <+: s := by
  unfold matchBookStart at h
  cases hml : matchLit (("---BOOK ").data) s with
  | none => rw [hml] at h; simp at h
  | some s1 => exact ⟨s1, (matchLit_some hml).symm⟩

/-- `scanBody` stops where the end marker matches. -/
theorem scanBody_of_matchEnd {s rest : List Char} (h : matchBookEnd s = some rest)
    (acc : List Char) : scanBody s acc = some (acc.reverse, rest) := by
  cases s with
  | nil => simp [scanBody, h]
  | cons c t => simp [scanBody, h]

/-- `scanBody` steps over a character where the end marker does not match. -/
theorem scanBody_of_matchEnd_none {c : Char} {t : List Char}
    (h : matchBookEnd (c :: t) = none) (acc : List Char) :
    scanBody (c :: t) acc = scanBody t (c :: acc) := by
  simp [scanBody, h]

/-- The non-greedy capture recovers exactly the body of a well-formed
section, leaving the rest of the response. -/
theorem scanBody_mk (t r : List Char) (ht : digitTag t) :
    ∀ b : List Char, ¬ (("---BOOK").data <:+: b) →
      ∀ acc, scanBody (b ++ ((("---BOOK ").data) ++ (t ++ (((" END---").data) ++ r)))) acc
        = some (acc.reverse ++ b, r) := by
  intro b
  induction b with
  | nil =>
    intro _ acc
    rw [List.nil_append]
    rw [scanBody_of_matchEnd (matchBookEnd_mk t r ht) acc]
    simp
  | cons c b2 ih =>
    intro hb acc
    have hb2 : ¬ (("---BOOK").data <:+: b2) := by
      intro hinf
      exact hb (List.infix_cons hinf)
    have hnone : matchBookEnd ((c :: b2) ++ ((("---BOOK ").data)
        ++ (t ++ (((" END---").data) ++ r)))) = none :=
      matchBookEnd_none (c :: b2) (t ++ (((" END---").data) ++ r)) (by simp) hb
    rw [List.cons_append]
    rw [scanBody_of_matchEnd_none (by exact hnone) acc]
    rw [ih hb2 (c :: acc)]
    simp

/-- One `findSectionsAux` step at a position where a full section matches. -/
theorem findSectionsAux_step {s rest body rest2 : List Char} {fuel : Nat} (hs : s ≠ [])
    (h1 : matchBookStart s = some rest) (h2 : scanBody rest [] = some (body, rest2)) :
    findSectionsAux (fuel + 1) s = body :: findSectionsAux fuel rest2 := by
  cases s with
  | nil => exact absurd rfl hs
  | cons c t => simp [findSectionsAux, h1, h2]

/-- One `findSectionsAux` step at a position where the start marker does not
match. -/
theorem findSectionsAux_skip_one {c : Char} {t : List Char} {fuel : Nat}
    (h : matchBookStart (c :: t) = none) :
    findSectionsAux (fuel + 1) (c :: t) = findSectionsAux fuel t := by
  simp [findSectionsAux, h]

/-- On `---BOOK`-free text, the regex pass finds nothing. -/
theorem findSectionsAux_no_marker : ∀ (trail : List Char),
    ¬ (("---BOOK").data <:+: trail) → ∀ fuel, findSectionsAux fuel trail = [] := by
  intro trail
  induction trail with
  | nil => intro _ fuel; cases fuel <;> rfl
  | cons c t ih =>
    intro htrail fuel
    cases fuel with
    | zero => rfl
    | succ fuel =>
      have hns : matchBookStart (c :: t) = none := by
        cases hms : matchBookStart (c :: t) with
        | none => rfl
        | some r =>
          exfalso
          have hpre := matchBookStart_some_prefix hms
          have h7 : (("---BOOK").data) <+: (c :: t) := by
            exact (show (("---BOOK").data) <+: ("---BOOK ").data by decide).trans hpre
          exact htrail (List.IsPrefix.isInfix h7)
      rw [findSectionsAux_skip_one hns]
      exact ih (fun hinf => htrail (List.infix_cons hinf)) fuel

/-- The regex pass skips marker-free separator text standing before a real
marker, at a cost of one fuel per character. -/
theorem findSectionsAux_skip (z : List Char) : ∀ (sep : List Char),
    ¬ (("---BOOK").data <:+: sep) →
    ∀ fuel, findSectionsAux (sep.length + fuel) (sep ++ ((("---BOOK ").data) ++ z))
      = findSectionsAux fuel ((("---BOOK ").data) ++ z) := by
  intro sep
  induction sep with
  | nil => intro _ fuel; simp
  | cons c t ih =>
    intro hsep fuel
    have hnone : matchBookStart ((c :: t) ++ ((("---BOOK ").data) ++ z)) = none :=
      matchBookStart_none (c :: t) z (by simp) hsep
    rw [show (c :: t).length + fuel = (t.length + fuel) + 1 from by
      rw [List.length_cons]; omega]
    rw [show (c :: t) ++ ((("---BOOK ").data) ++ z)
        = c :: (t ++ ((("---BOOK ").data) ++ z)) from rfl]
    rw [findSectionsAux_skip_one (by exact hnone)]
    exact ih (fun hinf => hsep (List.infix_cons hinf)) fuel

/-- The response is long enough to pay one fuel per separator character plus
one per section. -/
theorem mkResponseJ_cost (trail : List Char) :
    ∀ items, ((items.map (fun it => it.1.length + 1)).sum)
      ≤ (mkResponseJ items trail).length := by
  intro items
  induction items with
  | nil => simp [mkResponseJ]
  | cons item rest ih =>
    simp only [mkResponseJ, List.map_cons, List.sum_cons, List.length_append]
    have h1 : (("---BOOK ").data).length = 8 := rfl
    have h2 : ((" START---").data).length = 9 := rfl
    have h3 : ((" END---").data).length = 7 := rfl
    simp only [mkSection, List.length_append, h1, h2, h3]
    omega

/-- The regex pass recovers exactly the bodies of a response made of
well-formed sections separated (and followed) by marker-free text, in
document order. -/
theorem findSectionsAux_mkResponseJ (trail : List Char)
    (htrail : ¬ (("---BOOK").data <:+: trail)) :
    ∀ (items : List (List Char × ((List Char × List Char) × List Char))),
      (∀ it ∈ items, goodItem it) →
      ∀ fuel, ((items.map (fun it => it.1.length + 1)).sum) ≤ fuel →
      findSectionsAux fuel (mkResponseJ items trail)
        = items.map (fun it => it.2.2) := by
  intro items
  induction items with
  | nil =>
    intro _ fuel _
    exact findSectionsAux_no_marker trail htrail fuel
  | cons item rest ih =>
    intro hgood fuel hfuel
    obtain ⟨sep, ⟨⟨t1, t2⟩, body⟩⟩ := item
    obtain ⟨hsep, ht1, ht2, hb⟩ := hgood _ (List.mem_cons_self _ _)
    simp only [List.map_cons, List.sum_cons] at hfuel
    obtain ⟨f1, rfl⟩ : ∃ f1, fuel = sep.length + (f1 + 1) :=
      ⟨fuel - sep.length - 1, by omega⟩
    have hshape : mkResponseJ ((sep, ((t1, t2), body)) :: rest) trail
        = sep ++ ((("---BOOK ").data) ++ (t1 ++ (((" START---").data)
          ++ (body ++ ((("---BOOK ").data) ++ (t2 ++ (((" END---").data)
          ++ mkResponseJ rest trail))))))) := by
      simp [mkResponseJ, mkSection, List.append_assoc]
    rw [hshape]
    rw [findSectionsAux_skip _ sep hsep (f1 + 1)]
    rw [findSectionsAux_step (by simp)
      (matchBookStart_mk t1 _ ht1)
      (scanBody_mk t2 (mkResponseJ rest trail) ht2 body hb [])]
    rw [ih (fun it hit => hgood it (List.mem_cons_of_mem _ hit)) f1 (by omega)]
    simp

/-- `findSections` on a junk-interleaved well-formed response returns exactly
its section bodies, in order. -/
theorem findSections_mkResponseJ
    (items : List (List Char × ((List Char × List Char) × List Char)))
    (trail : List Char)
    (hgood : ∀ it ∈ items, goodItem it)
    (htrail : ¬ (("---BOOK").data <:+: trail)) :
    findSections (String.mk (mkResponseJ items trail))
      = items.map (fun it => String.mk it.2.2) := by
  unfold findSections
  rw [show (String.mk (mkResponseJ items trail)).data = mkResponseJ items trail from rfl]
  rw [findSectionsAux_mkResponseJ trail htrail items hgood _ (mkResponseJ_cost trail items)]
  simp

/-! ### Helper lemmas: `Except`-monadic plumbing -/

/-- Reduction of a bind on a successful value. -/
theorem except_bind_ok {α β : Type} (a : α) (f : α → Except String β) :
    (Except.ok a >>= f) = f a := rfl

/-- `mapM` of a pointwise-successful function is `map`. -/
theorem mapM_ok_of_forall {α β : Type} (f : α → Except String β) (g : α → β)
    (l : List α) (h : ∀ a ∈ l, f a = Except.ok (g a)) :
    l.mapM f = Except.ok (l.map g) := by
  induction l with
  | nil => rfl
  | cons a t ih =>
    rw [List.mapM_cons, h a (List.mem_cons_self _ _),
      ih (fun b hb => h b (List.mem_cons_of_mem _ hb))]
    rfl

/-- `mapM` of a pointwise-successful function succeeds and preserves
length. -/
theorem mapM_ok_length {α β : Type} (f : α → Except String β) (l : List α)
    (h : ∀ a ∈ l, ∃ b, f a = Except.ok b) :
    ∃ res, l.mapM f = Except.ok res ∧ res.length = l.length := by
  induction l with
  | nil => exact ⟨[], rfl, rfl⟩
  | cons a t ih =>
    obtain ⟨b, hb⟩ := h a (List.mem_cons_self _ _)
    obtain ⟨res, hres, hlen⟩ := ih (fun x hx => h x (List.mem_cons_of_mem _ hx))
    refine ⟨b :: res, ?_, by simp [hlen]⟩
    rw [List.mapM_cons, hb, hres]
    rfl

/-- When its extraction succeeds, `generate_ebook_dict` returns a result
(everything after extraction is total). -/
theorem generate_ebook_dict_ok (svc : Services) (p : String) (cats : List String)
    (ai : String) (ud : Bool) (exc : List String) (d : EbookData)
    (h : extract_ebook_data svc.pdf svc.epub p = Except.ok d) :
    ∃ info, generate_ebook_dict svc p cats ai ud exc = Except.ok info := by
  unfold generate_ebook_dict
  rw [h]
  exact ⟨_, rfl⟩

/-- The common computation of `process_batch` on a response whose parse
yields `k ≥ 1` sections: the result is the positional zip of the sections
with the first `k` records, followed by metadata-only defaults for the
rest. -/
theorem process_batch_core (svc : Services) (dfun : String → EbookData)
    (paths : List String) (sections : List String)
    (cats : List String) (ai : String) (ud : Bool) (exc : List String)
    (hex : ∀ p ∈ paths, extract_ebook_data svc.pdf svc.epub p = Except.ok (dfun p))
    (hsec : findSections (svc.llm
      (batchPrompt (paths.map (fun p => (p, dfun p))) cats ai ud exc)) = sections)
    (hne : sections ≠ []) :
    process_batch svc paths cats ai ud exc
      = Except.ok
          (((sections.zip (paths.map (fun p => (p, dfun p)))).map
            (fun p => parseSection p.2.1 p.2.2 p.1))
          ++ (((paths.map (fun p => (p, dfun p))).drop sections.length).map
              (fun e => metadataOnlyInfo e.1 e.2))) := by
  have hmap : paths.mapM (fun path => do
      let d ← extract_ebook_data svc.pdf svc.epub path
      pure (path, d)) = Except.ok (paths.map (fun p => (p, dfun p))) := by
    apply mapM_ok_of_forall
    intro p hp
    show (extract_ebook_data svc.pdf svc.epub p >>= fun d => pure (p, d))
      = Except.ok (p, dfun p)
    rw [hex p hp]
    rfl
  unfold process_batch
  rw [hmap, except_bind_ok]
  simp only []
  rw [hsec]
  rw [if_neg (fun h => hne (List.length_eq_zero.mp h))]
  rfl

/-! ### C2 — batch round trip, positional alignment -/

/-- C2.  On a response containing exactly `n` well-formed `---BOOK i
START/END---` sections for `n` input paths — tags arbitrary digit strings
(they are ignored for ordering), arbitrary marker-free text before each
section and after the last — `process_batch` returns exactly `n` results,
and the `j`-th section in document order is parsed against the `j`-th input
path. -/
theorem batch_roundtrip_alignment (svc : Services) (dfun : String → EbookData)
    (paths : List String)
    (items : List (List Char × ((List Char × List Char) × List Char)))
    (trail : List Char)
    (cats : List String) (ai : String) (ud : Bool) (exc : List String)
    (hex : ∀ p ∈ paths, extract_ebook_data svc.pdf svc.epub p = Except.ok (dfun p))
    (hllm : svc.llm (batchPrompt (paths.map (fun p => (p, dfun p))) cats ai ud exc)
      = String.mk (mkResponseJ items trail))
    (hgood : ∀ it ∈ items, goodItem it)
    (htrail : goodBody trail)
    (hlen : items.length = paths.length) :
    ∃ results, process_batch svc paths cats ai ud exc = Except.ok results
      ∧ results.length = paths.length
      ∧ ∀ (j : Nat) (hji : j < items.length) (hjp : j < paths.length)
          (hjr : j < results.length),
          results[j] = parseSection (paths[j]) (dfun (paths[j]))
            (String.mk ((items[j]).2.2)) := by
  have hsec : findSections (svc.llm
      (batchPrompt (paths.map (fun p => (p, dfun p))) cats ai ud exc))
      = items.map (fun it => String.mk it.2.2) := by
    rw [hllm]
    exact findSections_mkResponseJ items trail hgood htrail
  by_cases hne : items = []
  · subst hne
    have hp0 : paths = [] := List.length_eq_zero.mp (by simpa using hlen.symm)
    subst hp0
    refine ⟨[], ?_, rfl, ?_⟩
    · unfold process_batch
      rw [show (([] : List String).mapM (fun path => do
          let d ← extract_ebook_data svc.pdf svc.epub path
          pure (path, d))) = Except.ok ([] : List (String × EbookData)) from rfl]
      rw [except_bind_ok]
      simp only []
      simp only [List.map_nil] at hsec
      rw [hsec]
      rfl
    · intro j hji _ _
      simp at hji
  · have hsecne : items.map (fun it => String.mk it.2.2) ≠ [] :=
      fun h => hne (List.map_eq_nil_iff.mp h)
    obtain hcore := process_batch_core svc dfun paths
      (items.map (fun it => String.mk it.2.2)) cats ai ud exc hex hsec hsecne
    refine ⟨_, hcore, ?_, ?_⟩
    · simp only [List.length_append, List.length_map, List.length_zip,
        List.length_drop]
      omega
    · intro j hji hjp hjr
      have hzl : j < (((items.map (fun it => String.mk it.2.2)).zip
          (paths.map (fun p => (p, dfun p)))).map
            (fun p => parseSection p.2.1 p.2.2 p.1)).length := by
        simp only [List.length_map, List.length_zip]
        omega
      rw [List.getElem_append_left hzl]
      simp only [List.getElem_map, List.getElem_zip]

set_option maxRecDepth 8000 in
/-- C2 witness: a two-book batch whose response holds two well-formed
sections separated by blank lines; the batch returns two results. -/
theorem batch_roundtrip_alignment_witness :
    ∃ results,
      process_batch (respServices (String.mk (mkResponseJ demoItems2 (("\n").data))))
        [("a.mobi"), ("b.mobi")] [] "" true [] = Except.ok results
      ∧ results.length = 2 := by
  obtain ⟨res, hres, hlen, _⟩ :=
    batch_roundtrip_alignment
      (respServices (String.mk (mkResponseJ demoItems2 (("\n").data))))
      (fun p => extract_mobi_azw3_data p) [("a.mobi"), ("b.mobi")] demoItems2
      (("\n").data) [] "" true []
      (by
        intro p hp
        simp only [List.mem_cons, List.not_mem_nil, or_false] at hp
        rcases hp with rfl | rfl
        · rfl
        · rfl)
      rfl
      (by decide)
      (by decide)
      rfl
  exact ⟨res, hres, hlen⟩

/-! ### C3 — zero sections: full single-item fallback -/

/-- C3.  When the batch response contains zero recognizable sections,
`process_batch` is exactly one `generate_ebook_dict` invocation per input
path, and (extraction succeeding) it still returns one result per path. -/
theorem batch_zero_sections_fallback (svc : Services) (dfun : String → EbookData)
    (paths : List String) (cats : List String) (ai : String) (ud : Bool)
    (exc : List String)
    (hex : ∀ p ∈ paths, extract_ebook_data svc.pdf svc.epub p = Except.ok (dfun p))
    (hresp : findSections (svc.llm
      (batchPrompt (paths.map (fun p => (p, dfun p))) cats ai ud exc)) = []) :
    process_batch svc paths cats ai ud exc
        = paths.mapM (fun p => generate_ebook_dict svc p cats ai ud exc)
    ∧ ∃ results, process_batch svc paths cats ai ud exc = Except.ok results
        ∧ results.length = paths.length := by
  have hmap : paths.mapM (fun path => do
      let d ← extract_ebook_data svc.pdf svc.epub path
      pure (path, d)) = Except.ok (paths.map (fun p => (p, dfun p))) := by
    apply mapM_ok_of_forall
    intro p hp
    show (extract_ebook_data svc.pdf svc.epub p >>= fun d => pure (p, d))
      = Except.ok (p, dfun p)
    rw [hex p hp]
    rfl
  have heq : process_batch svc paths cats ai ud exc
      = paths.mapM (fun p => generate_ebook_dict svc p cats ai ud exc) := by
    unfold process_batch
    rw [hmap, except_bind_ok]
    simp only []
    rw [hresp]
    rfl
  refine ⟨heq, ?_⟩
  rw [heq]
  exact mapM_ok_length _ paths
    (fun p hp => generate_ebook_dict_ok svc p cats ai ud exc (dfun p) (hex p hp))

/-- C3 witness: a one-book batch whose response has no sections at all still
yields one result. -/
theorem batch_zero_sections_fallback_witness :
    ∃ results, process_batch (respServices ("no sections here"))
        [("a.mobi")] [] "" true [] = Except.ok results
      ∧ results.length = 1 := by
  obtain ⟨_, h2⟩ := batch_zero_sections_fallback (respServices ("no sections here"))
    (fun p => extract_mobi_azw3_data p) [("a.mobi")] [] "" true []
    (by
      intro p hp
      simp only [List.mem_cons, List.not_mem_nil, or_false] at hp
      rcases hp with rfl
      rfl)
    rfl
  exact h2

/-! ### C4 — partially recovered sections -/

/-- C4.  With `0 < k < n` recovered sections, the first `k` records get their
parsed fields (positionally), records `k+1..n` get the metadata-only default
(`year = Unknown`, `summary = No summary available`, `category =
Uncategorized`, title/author from extraction), and no further LLM call is
made: the outcome depends on the LLM only through the single batch
response. -/
theorem batch_partial_sections (svc : Services) (dfun : String → EbookData)
    (paths : List String)
    (items : List (List Char × ((List Char × List Char) × List Char)))
    (trail : List Char)
    (cats : List String) (ai : String) (ud : Bool) (exc : List String)
    (hex : ∀ p ∈ paths, extract_ebook_data svc.pdf svc.epub p = Except.ok (dfun p))
    (hllm : svc.llm (batchPrompt (paths.map (fun p => (p, dfun p))) cats ai ud exc)
      = String.mk (mkResponseJ items trail))
    (hgood : ∀ it ∈ items, goodItem it)
    (htrail : goodBody trail)
    (hk : 0 < items.length) (hkn : items.length < paths.length) :
    ∃ results, process_batch svc paths cats ai ud exc = Except.ok results
      ∧ results.length = paths.length
      ∧ (∀ (j : Nat) (hji : j < items.length) (hjp : j < paths.length)
          (hjr : j < results.length),
          results[j] = parseSection (paths[j]) (dfun (paths[j]))
            (String.mk ((items[j]).2.2)))
      ∧ (∀ (j : Nat) (hjp : j < paths.length) (hjr : j < results.length),
          items.length ≤ j →
          results[j] = metadataOnlyInfo (paths[j]) (dfun (paths[j])))
      ∧ (∀ g : String → String,
          g (batchPrompt (paths.map (fun p => (p, dfun p))) cats ai ud exc)
            = svc.llm (batchPrompt (paths.map (fun p => (p, dfun p))) cats ai ud exc) →
          process_batch { pdf := svc.pdf, epub := svc.epub, llm := g } paths cats ai ud exc
            = process_batch svc paths cats ai ud exc) := by
  have hne : items ≠ [] := by
    intro h
    rw [h] at hk
    simp at hk
  have hsec : findSections (svc.llm
      (batchPrompt (paths.map (fun p => (p, dfun p))) cats ai ud exc))
      = items.map (fun it => String.mk it.2.2) := by
    rw [hllm]
    exact findSections_mkResponseJ items trail hgood htrail
  have hsecne : items.map (fun it => String.mk it.2.2) ≠ [] :=
    fun h => hne (List.map_eq_nil_iff.mp h)
  obtain hcore := process_batch_core svc dfun paths
    (items.map (fun it => String.mk it.2.2)) cats ai ud exc hex hsec hsecne
  refine ⟨_, hcore, ?_, ?_, ?_, ?_⟩
  · simp only [List.length_append, List.length_map, List.length_zip,
      List.length_drop]
    omega
  · intro j hji hjp hjr
    have hzl : j < (((items.map (fun it => String.mk it.2.2)).zip
        (paths.map (fun p => (p, dfun p)))).map
          (fun p => parseSection p.2.1 p.2.2 p.1)).length := by
      simp only [List.length_map, List.length_zip]
      omega
    rw [List.getElem_append_left hzl]
    simp only [List.getElem_map, List.getElem_zip]
  · intro j hjp hjr hge
    have hlft : (((items.map (fun it => String.mk it.2.2)).zip
        (paths.map (fun p => (p, dfun p)))).map
          (fun p => parseSection p.2.1 p.2.2 p.1)).length ≤ j := by
      simp only [List.length_map, List.length_zip]
      omega
    rw [List.getElem_append_right hlft]
    simp only [List.getElem_map, List.getElem_drop, List.length_map, List.length_zip]
    have hidx : (items.map (fun it => String.mk it.2.2)).length
        + (j - ((items.map (fun it => String.mk it.2.2)).length ⊓ paths.length)) = j := by
      simp only [List.length_map]
      omega
    simp only [List.length_map] at hidx
    simp only [hidx]
  · intro g hg
    have hsec2 : findSections (Services.llm
        { pdf := svc.pdf, epub := svc.epub, llm := g }
        (batchPrompt (paths.map (fun p => (p, dfun p))) cats ai ud exc))
        = items.map (fun it => String.mk it.2.2) := by
      show findSections (g (batchPrompt (paths.map (fun p => (p, dfun p))) cats ai ud exc))
        = items.map (fun it => String.mk it.2.2)
      rw [hg]
      exact hsec
    have hcore2 := process_batch_core
      { pdf := svc.pdf, epub := svc.epub, llm := g } dfun paths
      (items.map (fun it => String.mk it.2.2)) cats ai ud exc
      hex hsec2 hsecne
    rw [hcore2, hcore]

set_option maxRecDepth 8000 in
/-- C4 witness: a two-book batch whose response holds one well-formed
section still yields two results. -/
theorem batch_partial_sections_witness :
    ∃ results,
      process_batch (respServices (String.mk (mkResponseJ demoItems1 (("\n").data))))
        [("a.mobi"), ("b.mobi")] [] "" true [] = Except.ok results
      ∧ results.length = 2 := by
  obtain ⟨res, hres, hlen, _⟩ :=
    batch_partial_sections
      (respServices (String.mk (mkResponseJ demoItems1 (("\n").data))))
      (fun p => extract_mobi_azw3_data p) [("a.mobi"), ("b.mobi")] demoItems1
      (("\n").data) [] "" true []
      (by
        intro p hp
        simp only [List.mem_cons, List.not_mem_nil, or_false] at hp
        rcases hp with rfl | rfl
        · rfl
        · rfl)
      rfl
      (by decide)
      (by decide)
      (by decide)
      (by decide)
  exact ⟨res, hres, hlen⟩

end EbookOrg
